import Mathlib

/-!
LDNS multi-architecture router header: `common-template.h`

The repository ships one C header, `common-template.h`.  After comment removal
the C preprocessor sees exactly one directive in it, the inclusion of
`<TargetConditionals.h>`.

This development embeds the file as a list of preprocessor directive lines and
gives the directive language its usual meaning (file inclusion, object-like
definitions, conditional groups, the error directive), so that statements such
as "the file raises no error", "the file defines nothing" or "the file selects
an architecture header" are statements about running the file and not about
its shape alone.

The contents of `<TargetConditionals.h>` and of every other header that can be
found on the include path belong to the toolchain, not to this repository; they
are taken as a parameter (`Toolchain`).
-/

namespace LDNS

/-! ## Preprocessor state -/

/-- Table of the object-like definitions that are visible at some point of
preprocessing: name and integer value, at most one entry per name. -/
abbrev Defines := List (String × Int)

/-- Value bound to `name` in the table, if any. -/
def Defines.value? (d : Defines) (name : String) : Option Int :=
  (d.find? (fun e => e.1 == name)).map (fun e => e.2)

/-- Removes every entry for `name`. -/
def Defines.remove (d : Defines) (name : String) : Defines :=
  d.filter (fun e => !(e.1 == name))

/-- Binds `name` to `v`, replacing an earlier binding. -/
def Defines.set (d : Defines) (name : String) (v : Int) : Defines :=
  (name, v) :: d.remove name

/-- Controlling expression of `#if` / `#elif`, restricted to the operators a
platform test uses. -/
inductive Cond where
  | lit (n : Int)
  | defined (name : String)
  | ident (name : String)
  | not (c : Cond)
  | and (a b : Cond)
  | or (a b : Cond)
  deriving Repr, DecidableEq

/-- Truth value of a controlling expression.  An identifier that is not defined
counts as 0, as in C. -/
def Cond.eval (d : Defines) : Cond → Bool
  | .lit n => n != 0
  | .defined name => (d.value? name).isSome
  | .ident name => (d.value? name).getD 0 != 0
  | .not c => !(c.eval d)
  | .and a b => a.eval d && b.eval d
  | .or a b => a.eval d || b.eval d

/-- One preprocessor directive line. -/
inductive Line where
  | includeHeader (name : String)
  | define (name : String) (value : Int)
  | undef (name : String)
  | ifCond (c : Cond)
  | elifCond (c : Cond)
  | elseLine
  | endifLine
  | error (msg : String)
  deriving Repr, DecidableEq

/-- Fatal preprocessing errors. -/
inductive PPError where
  /-- Result of `#include` when the named header is not on the include path. -/
  | fileNotFound (name : String)
  /-- Result of an `#error` directive in a live group. -/
  | userError (msg : String)
  /-- Result of `#elif`, `#else` or `#endif` without an open `#if`. -/
  | strayDirective
  /-- Result of reaching the end of the file inside an open `#if`. -/
  | unterminatedConditional
  deriving Repr, DecidableEq

/-- Bookkeeping for one open conditional group. -/
structure Frame where
  /-- The lines of the current branch are being processed. -/
  live : Bool
  /-- Some branch of this group has already been selected. -/
  taken : Bool
  /-- The group itself sits in text that is being processed. -/
  outer : Bool
  deriving Repr, DecidableEq

/-- State of the preprocessor while it works through a file. -/
structure PPState where
  /-- Definitions visible so far. -/
  defs : Defines
  /-- Headers included so far, in order of inclusion. -/
  included : List String
  /-- Open conditional groups, innermost first. -/
  stack : List Frame
  /-- The fatal error that stopped preprocessing, if any. -/
  failure : Option PPError
  deriving Repr, DecidableEq

/-- The include path of the toolchain: what each header that can be found does
to the table of definitions when it is included; `none` when there is no such
header. -/
structure Toolchain where
  headers : String → Option (Defines → Defines)

/-- Whether the line being looked at lies in text that is processed. -/
def PPState.active (st : PPState) : Bool :=
  match st.stack with
  | [] => true
  | f :: _ => f.live

/-- Processes one directive line. -/
def step (tc : Toolchain) (st : PPState) : Line → PPState
  | .includeHeader name =>
    if st.active then
      match tc.headers name with
      | some h => { st with defs := h st.defs, included := st.included ++ [name] }
      | none => { st with failure := some (.fileNotFound name) }
    else st
  | .define name v =>
    if st.active then { st with defs := st.defs.set name v } else st
  | .undef name =>
    if st.active then { st with defs := st.defs.remove name } else st
  | .error msg =>
    if st.active then { st with failure := some (.userError msg) } else st
  | .ifCond c =>
    let l := st.active && c.eval st.defs
    { st with stack := { live := l, taken := l, outer := st.active } :: st.stack }
  | .elifCond c =>
    match st.stack with
    | [] => { st with failure := some .strayDirective }
    | f :: rest =>
      let l := f.outer && !f.taken && c.eval st.defs
      { st with stack := { live := l, taken := f.taken || l, outer := f.outer } :: rest }
  | .elseLine =>
    match st.stack with
    | [] => { st with failure := some .strayDirective }
    | f :: rest =>
      let l := f.outer && !f.taken
      { st with stack := { live := l, taken := true, outer := f.outer } :: rest }
  | .endifLine =>
    match st.stack with
    | [] => { st with failure := some .strayDirective }
    | _ :: rest => { st with stack := rest }

/-- Processes the lines of a file in order; the first fatal error stops it. -/
def run (tc : Toolchain) : List Line → PPState → PPState
  | [], st =>
    match st.stack with
    | [] => st
    | _ :: _ => { st with failure := some .unterminatedConditional }
  | l :: ls, st =>
    let st1 := step tc st l
    match st1.failure with
    | some _ => st1
    | none => run tc ls st1

/-! ## The shipped file -/

/-- Name of the toolchain header that supplies the target platform facts. -/
def platformHeader : String := "TargetConditionals.h"

/-- Directive lines of `common-template.h`: lines 1 to 7 are a comment, line 8
is blank, line 9 is `#include <TargetConditionals.h>`. -/
def commonTemplate : List Line :=
  [Line.includeHeader "TargetConditionals.h"]

/-- State in which preprocessing of a translation unit starts: the definitions
the compiler predefines for the target, nothing included, no open group. -/
def initial (predefined : Defines) : PPState :=
  { defs := predefined, included := [], stack := [], failure := none }

/-- Resolution: preprocessing `common-template.h` for a target described by the
toolchain and the compiler-predefined definitions. -/
def resolve (tc : Toolchain) (predefined : Defines) : PPState :=
  run tc commonTemplate (initial predefined)

/-! ## Observations on a file and on a resolution -/

/-- Architecture configuration units activated: every header included other
than the platform-identification header. -/
def configUnits (st : PPState) : List String :=
  st.included.filter (fun n => !(n == platformHeader))

/-- Names the file itself defines, redefines or undefines. -/
def writtenNames : List Line → List String
  | [] => []
  | .define name _ :: ls => name :: writtenNames ls
  | .undef name :: ls => name :: writtenNames ls
  | _ :: ls => writtenNames ls

/-- Whether a line opens, continues or closes a conditional group. -/
def Line.isConditional : Line → Bool
  | .ifCond _ | .elifCond _ | .elseLine | .endifLine => true
  | _ => false

/-- Whether a line is an error directive. -/
def Line.isError : Line → Bool
  | .error _ => true
  | _ => false

/-- Headers a file names in its include directives, in order. -/
def includeTargets : List Line → List String
  | [] => []
  | .includeHeader name :: ls => name :: includeTargets ls
  | _ :: ls => includeTargets ls

/-! ## Example targets

Concrete toolchains in the shape of an Apple SDK.  The platform-identification
header turns the target triple into `TARGET_OS_*` and `TARGET_CPU_*` values; the
values below are those of the SDK for the named target. -/

/-- Adds the listed definitions to a table, later entries of the list last. -/
def addDefs (new : Defines) (d : Defines) : Defines :=
  new.foldl (fun acc e => acc.set e.1 e.2) d

/-- An SDK whose platform-identification header supplies `facts` and on whose
include path every other header can be found and leaves the table alone. -/
def sdk (facts : Defines) : Toolchain :=
  { headers := fun name =>
      if name == platformHeader then some (addDefs facts) else some (fun d => d) }

/-- An SDK that supplies `facts` and nothing else: the platform-identification
header is the only header on the include path. -/
def bareSdk (facts : Defines) : Toolchain :=
  { headers := fun name =>
      if name == platformHeader then some (addDefs facts) else none }

/-- A toolchain without the platform-identification header (a non-Apple host). -/
def foreignToolchain : Toolchain :=
  { headers := fun _ => none }

/-- Facts for an iOS device, 64-bit ARM. -/
def iosDeviceArm64 : Defines :=
  [("TARGET_OS_IPHONE", 1), ("TARGET_OS_IOS", 1), ("TARGET_OS_TV", 0),
   ("TARGET_OS_SIMULATOR", 0), ("TARGET_CPU_ARM64", 1), ("TARGET_CPU_X86_64", 0)]

/-- Facts for the iOS simulator, 64-bit ARM. -/
def iosSimulatorArm64 : Defines :=
  [("TARGET_OS_IPHONE", 1), ("TARGET_OS_IOS", 1), ("TARGET_OS_TV", 0),
   ("TARGET_OS_SIMULATOR", 1), ("TARGET_CPU_ARM64", 1), ("TARGET_CPU_X86_64", 0)]

/-- Facts for tvOS on x86-64. -/
def tvosX8664 : Defines :=
  [("TARGET_OS_IPHONE", 1), ("TARGET_OS_IOS", 0), ("TARGET_OS_TV", 1),
   ("TARGET_OS_SIMULATOR", 1), ("TARGET_CPU_ARM64", 0), ("TARGET_CPU_X86_64", 1)]

/-- Compiler-predefined definitions for a 64-bit ARM Apple target. -/
def predefinedArm64 : Defines := [("__APPLE__", 1), ("__arm64__", 1)]

/-- Compiler-predefined definitions for an x86-64 Apple target. -/
def predefinedX8664 : Defines := [("__APPLE__", 1), ("__x86_64__", 1)]

/-! ## General facts about the directive language -/

/-- A single line adds at most the header it names to the inclusion list. -/
theorem step_included (tc : Toolchain) (st : PPState) (l : Line) (n : String)
    (hn : n ∈ (step tc st l).included) :
    n ∈ st.included ∨ l = Line.includeHeader n := by
  cases l with
  | includeHeader name =>
    simp only [step] at hn
    split at hn
    · split at hn
      · simp only [List.mem_append, List.mem_singleton] at hn
        rcases hn with hn | hn
        · exact Or.inl hn
        · exact Or.inr (by rw [hn])
      · exact Or.inl hn
    · exact Or.inl hn
  | define name v =>
    simp only [step] at hn
    split at hn <;> exact Or.inl hn
  | undef name =>
    simp only [step] at hn
    split at hn <;> exact Or.inl hn
  | error msg =>
    simp only [step] at hn
    split at hn <;> exact Or.inl hn
  | ifCond c => exact Or.inl hn
  | elifCond c =>
    simp only [step] at hn
    split at hn <;> exact Or.inl hn
  | elseLine =>
    simp only [step] at hn
    split at hn <;> exact Or.inl hn
  | endifLine =>
    simp only [step] at hn
    split at hn <;> exact Or.inl hn

/-- Running a file includes only headers the file names in include lines. -/
theorem run_included (tc : Toolchain) (ls : List Line) (st : PPState) (n : String)
    (hn : n ∈ (run tc ls st).included) :
    n ∈ st.included ∨ n ∈ includeTargets ls := by
  induction ls generalizing st with
  | nil =>
    simp only [run] at hn
    split at hn <;> exact Or.inl hn
  | cons l ls ih =>
    simp only [run] at hn
    have key : n ∈ (step tc st l).included → n ∈ st.included ∨ n ∈ includeTargets (l :: ls) := by
      intro h1
      rcases step_included tc st l n h1 with h2 | h2
      · exact Or.inl h2
      · subst h2
        exact Or.inr (by simp [includeTargets])
    split at hn
    · exact key hn
    · rcases ih _ hn with h1 | h1
      · exact key h1
      · refine Or.inr ?_
        cases l <;> simp [includeTargets, h1]

/-- A single line raises a user error only if it is an error directive. -/
theorem step_userError (tc : Toolchain) (st : PPState) (l : Line) (msg : String)
    (hf : (step tc st l).failure = some (PPError.userError msg)) :
    st.failure = some (PPError.userError msg) ∨ l = Line.error msg := by
  cases l with
  | includeHeader name =>
    simp only [step] at hf
    split at hf
    · split at hf
      · exact Or.inl hf
      · simp at hf
    · exact Or.inl hf
  | define name v =>
    simp only [step] at hf
    split at hf <;> exact Or.inl hf
  | undef name =>
    simp only [step] at hf
    split at hf <;> exact Or.inl hf
  | error m =>
    simp only [step] at hf
    split at hf
    · simp only [Option.some.injEq, PPError.userError.injEq] at hf
      exact Or.inr (by rw [hf])
    · exact Or.inl hf
  | ifCond c => exact Or.inl hf
  | elifCond c =>
    simp only [step] at hf
    split at hf
    · simp at hf
    · exact Or.inl hf
  | elseLine =>
    simp only [step] at hf
    split at hf
    · simp at hf
    · exact Or.inl hf
  | endifLine =>
    simp only [step] at hf
    split at hf
    · simp at hf
    · exact Or.inl hf

/-- Running a file raises a user error only if the file has an error directive
with that message. -/
theorem run_userError (tc : Toolchain) (ls : List Line) (st : PPState) (msg : String)
    (hf : (run tc ls st).failure = some (PPError.userError msg)) :
    st.failure = some (PPError.userError msg) ∨ Line.error msg ∈ ls := by
  induction ls generalizing st with
  | nil =>
    simp only [run] at hf
    split at hf
    · exact Or.inl hf
    · simp at hf
  | cons l ls ih =>
    simp only [run] at hf
    have key : (step tc st l).failure = some (PPError.userError msg) →
        st.failure = some (PPError.userError msg) ∨ Line.error msg ∈ l :: ls := by
      intro h1
      rcases step_userError tc st l msg h1 with h2 | h2
      · exact Or.inl h2
      · exact Or.inr (by simp [h2])
    split at hf
    · exact key hf
    · rcases ih _ hf with h1 | h1
      · exact key h1
      · exact Or.inr (List.mem_cons_of_mem _ h1)

/-! ## The shipped file, evaluated -/

/-- Resolution when the toolchain supplies the platform-identification header:
the header is processed and nothing else happens. -/
theorem resolve_found (tc : Toolchain) (predefined : Defines) (h : Defines → Defines)
    (hh : tc.headers platformHeader = some h) :
    resolve tc predefined =
      { defs := h predefined, included := [platformHeader], stack := [], failure := none } := by
  have hh1 : tc.headers "TargetConditionals.h" = some h := hh
  simp [resolve, commonTemplate, run, step, initial, PPState.active, hh1, platformHeader]

/-- Resolution when the toolchain has no platform-identification header: the
include directive is fatal. -/
theorem resolve_missing (tc : Toolchain) (predefined : Defines)
    (hh : tc.headers platformHeader = none) :
    resolve tc predefined =
      { defs := predefined, included := [], stack := [],
        failure := some (PPError.fileNotFound platformHeader) } := by
  have hh1 : tc.headers "TargetConditionals.h" = none := hh
  simp [resolve, commonTemplate, run, step, initial, PPState.active, hh1, platformHeader]

/-- Resolution on a toolchain without the header stops at the include line. -/
theorem resolve_foreignToolchain :
    resolve foreignToolchain predefinedArm64 =
      { defs := predefinedArm64, included := [], stack := [],
        failure := some (PPError.fileNotFound "TargetConditionals.h") } := by
  decide

/-- No resolution activates a configuration unit. -/
theorem configUnits_resolve (tc : Toolchain) (predefined : Defines) :
    configUnits (resolve tc predefined) = [] := by
  cases hh : tc.headers platformHeader with
  | none => rw [resolve_missing tc predefined hh]; rfl
  | some h => rw [resolve_found tc predefined h hh]; simp [configUnits]

/-- No resolution raises a user error. -/
theorem resolve_no_userError (tc : Toolchain) (predefined : Defines) (msg : String) :
    (resolve tc predefined).failure ≠ some (PPError.userError msg) := by
  intro hf
  rcases run_userError tc commonTemplate (initial predefined) msg hf with h1 | h1
  · simp [initial] at h1
  · simp [commonTemplate] at h1

/-- Whatever a resolution includes is the platform-identification header. -/
theorem resolve_included_only_platform (tc : Toolchain) (predefined : Defines) (n : String)
    (hn : n ∈ (resolve tc predefined).included) : n = platformHeader := by
  rcases run_included tc commonTemplate (initial predefined) n hn with h1 | h1
  · simp [initial] at h1
  · simpa [commonTemplate, includeTargets, platformHeader] using h1

/-! ## Claims

The header comment of `common-template.h` (lines 2 to 4) gives the purpose of the
file: an intermediate header "to use the proper common.h file for each
architecture" of "all iOS and tvOS devices".  The shipped file stops after the
inclusion of the platform-identification header; the evaluations for C1 to C4
record what it does at one concrete target each. -/

/-- C5.  The shipped file only reads the facts: it has no line that defines,
redefines or undefines a name, and for every facts input the definitions
visible after resolution are exactly what the platform-identification header
of the toolchain made of the predefined ones. -/
theorem C5_router_only_reads_facts (tc : Toolchain) (predefined : Defines)
    (h : Defines → Defines)
    (hh : tc.headers platformHeader = some h) :
    writtenNames commonTemplate = [] ∧
    (resolve tc predefined).defs = h predefined ∧
    (∀ name : String, (resolve tc predefined).defs.value? name = (h predefined).value? name) := by
  rw [resolve_found tc predefined h hh]
  exact ⟨by simp [writtenNames, commonTemplate], rfl, fun _ => rfl⟩

/-- C5 at the iOS simulator on 64-bit ARM. -/
theorem C5_router_only_reads_facts_witness :
    (sdk iosSimulatorArm64).headers platformHeader = some (addDefs iosSimulatorArm64) ∧
    (writtenNames commonTemplate = [] ∧
     (resolve (sdk iosSimulatorArm64) predefinedArm64).defs
        = addDefs iosSimulatorArm64 predefinedArm64 ∧
     (∀ name : String,
        (resolve (sdk iosSimulatorArm64) predefinedArm64).defs.value? name
          = (addDefs iosSimulatorArm64 predefinedArm64).value? name)) :=
  ⟨rfl, C5_router_only_reads_facts (sdk iosSimulatorArm64) predefinedArm64
    (addDefs iosSimulatorArm64) rfl⟩

/-- C6.  Resolution is deterministic: two resolutions with identical facts (the
same predefined definitions and the same platform-identification header, on
whatever include path) end in the identical state, so with the same selected
units and the same failure. -/
theorem C6_resolution_deterministic (tc1 tc2 : Toolchain) (m1 m2 : Defines)
    (hhead : tc1.headers platformHeader = tc2.headers platformHeader)
    (hm : m1 = m2) :
    resolve tc1 m1 = resolve tc2 m2 ∧
    configUnits (resolve tc1 m1) = configUnits (resolve tc2 m2) ∧
    (resolve tc1 m1).failure = (resolve tc2 m2).failure := by
  subst hm
  have key : resolve tc1 m1 = resolve tc2 m1 := by
    cases h2 : tc2.headers platformHeader with
    | none =>
      rw [resolve_missing tc2 m1 h2, resolve_missing tc1 m1 (hhead.trans h2)]
    | some h =>
      rw [resolve_found tc2 m1 h h2, resolve_found tc1 m1 h (hhead.trans h2)]
  exact ⟨key, by rw [key], by rw [key]⟩

/-- C6 at the iOS device on 64-bit ARM, resolved on two include paths that
agree on the platform-identification header. -/
theorem C6_resolution_deterministic_witness :
    (sdk iosDeviceArm64).headers platformHeader
      = (bareSdk iosDeviceArm64).headers platformHeader ∧
    predefinedArm64 = predefinedArm64 ∧
    (resolve (sdk iosDeviceArm64) predefinedArm64
        = resolve (bareSdk iosDeviceArm64) predefinedArm64 ∧
     configUnits (resolve (sdk iosDeviceArm64) predefinedArm64)
        = configUnits (resolve (bareSdk iosDeviceArm64) predefinedArm64) ∧
     (resolve (sdk iosDeviceArm64) predefinedArm64).failure
        = (resolve (bareSdk iosDeviceArm64) predefinedArm64).failure) :=
  ⟨rfl, rfl, C6_resolution_deterministic (sdk iosDeviceArm64) (bareSdk iosDeviceArm64)
    predefinedArm64 predefinedArm64 rfl rfl⟩

/-- C7.  The shipped file is independent of the facts: none of its lines is a
conditional or an error directive and its only include line names the
platform-identification header; for any two facts inputs the outcome is the
same, namely that header included alone, no configuration unit activated and
no error raised. -/
theorem C7_shipped_file_ignores_facts (tc1 tc2 : Toolchain) (m1 m2 : Defines)
    (h1 h2 : Defines → Defines)
    (hh1 : tc1.headers platformHeader = some h1)
    (hh2 : tc2.headers platformHeader = some h2) :
    (∀ l ∈ commonTemplate, l.isConditional = false ∧ l.isError = false) ∧
    includeTargets commonTemplate = [platformHeader] ∧
    (resolve tc1 m1).included = [platformHeader] ∧
    configUnits (resolve tc1 m1) = [] ∧
    (resolve tc1 m1).failure = none ∧
    (resolve tc1 m1).stack = [] ∧
    (resolve tc2 m2).included = (resolve tc1 m1).included ∧
    configUnits (resolve tc2 m2) = configUnits (resolve tc1 m1) ∧
    (resolve tc2 m2).failure = (resolve tc1 m1).failure := by
  have hc1 := configUnits_resolve tc1 m1
  have hc2 := configUnits_resolve tc2 m2
  rw [hc1, hc2, resolve_found tc1 m1 h1 hh1, resolve_found tc2 m2 h2 hh2]
  refine ⟨?_, ?_, rfl, rfl, rfl, rfl, rfl, rfl, rfl⟩
  · simp [commonTemplate, Line.isConditional, Line.isError]
  · simp [commonTemplate, includeTargets, platformHeader]

/-- C7 at two different targets: an iOS device on 64-bit ARM and tvOS on
x86-64. -/
theorem C7_shipped_file_ignores_facts_witness :
    (sdk iosDeviceArm64).headers platformHeader = some (addDefs iosDeviceArm64) ∧
    (sdk tvosX8664).headers platformHeader = some (addDefs tvosX8664) ∧
    ((∀ l ∈ commonTemplate, l.isConditional = false ∧ l.isError = false) ∧
     includeTargets commonTemplate = [platformHeader] ∧
     (resolve (sdk iosDeviceArm64) predefinedArm64).included = [platformHeader] ∧
     configUnits (resolve (sdk iosDeviceArm64) predefinedArm64) = [] ∧
     (resolve (sdk iosDeviceArm64) predefinedArm64).failure = none ∧
     (resolve (sdk iosDeviceArm64) predefinedArm64).stack = [] ∧
     (resolve (sdk tvosX8664) predefinedX8664).included
        = (resolve (sdk iosDeviceArm64) predefinedArm64).included ∧
     configUnits (resolve (sdk tvosX8664) predefinedX8664)
        = configUnits (resolve (sdk iosDeviceArm64) predefinedArm64) ∧
     (resolve (sdk tvosX8664) predefinedX8664).failure
        = (resolve (sdk iosDeviceArm64) predefinedArm64).failure) :=
  ⟨rfl, rfl, C7_shipped_file_ignores_facts (sdk iosDeviceArm64) (sdk tvosX8664)
    predefinedArm64 predefinedX8664 (addDefs iosDeviceArm64) (addDefs tvosX8664) rfl rfl⟩

end LDNS
